import Mathlib

/-!
Verification of the `intercom_test` repository.

Two components are embedded from the Python sources:

* `question_2/flattenlist.py` — an iterative, work-list based flattener of
  arbitrarily nested lists.  Python's dynamically typed nested lists are
  embedded as the inductive type `Node α`: a value is either a leaf of
  payload type `α` or a container holding a list of values (the Python
  `isinstance(x, list)` discrimination).  An inductive value is necessarily
  finite and acyclic, matching the spec's scope.

* `question_3/closecustomers.py` — a customer parsing / validation /
  geo-filter / formatting pipeline.  JSON values produced by `json.loads`
  are embedded as `JValue`; Python exceptions are embedded with
  `Except PyErr`; the real-valued distance computation is embedded over `ℝ`
  (exact real arithmetic standing for IEEE floats), with `math.acos`'s
  domain error made explicit.
-/

namespace IntercomTest

/-! ### Flattener: data model (question_2/flattenlist.py) -/

/-- A node of the nested input of `flatten_list`: either a leaf value (any
non-list Python value) or a container (a Python list) holding further
nodes, matching the `isinstance(current_element, list)` discrimination in
the source. -/
inductive Node (α : Type) where
  | leaf (v : α)
  | container (children : List (Node α))

/-- Total number of nodes (leaves and containers) in a forest.  Used as the
termination measure of the work-list loop: each loop iteration pops exactly
one node occurrence. -/
def nodeSizeList {α : Type} : List (Node α) → Nat
  | [] => 0
  | .leaf _ :: rest => 1 + nodeSizeList rest
  | .container cs :: rest => 1 + nodeSizeList cs + nodeSizeList rest

/-- Modelled from the spec: the depth-first, pre-order, left-to-right
sequence of leaves of a forest of nodes ("a flat ordered sequence of all
leaves, in the same left-to-right (depth-first, pre-order per branch)
order as they appear in the nested input").  This is the specification
side of the refinement; the implementation side is `flatten_list` below. -/
def preorderLeavesList {α : Type} : List (Node α) → List α
  | [] => []
  | .leaf v :: rest => v :: preorderLeavesList rest
  | .container cs :: rest => preorderLeavesList cs ++ preorderLeavesList rest

/-- Modelled from the spec: the pre-order leaf sequence of a single node. -/
def preorderLeaves {α : Type} (n : Node α) : List α :=
  preorderLeavesList [n]

/-- Modelled from the spec: the number of leaves in a forest ("output
length equals the count of leaves in the input"). -/
def leafCountList {α : Type} : List (Node α) → Nat
  | [] => 0
  | .leaf _ :: rest => 1 + leafCountList rest
  | .container cs :: rest => leafCountList cs + leafCountList rest

/-- Modelled from the spec: the number of leaves below a single node. -/
def leafCount {α : Type} (n : Node α) : Nat :=
  leafCountList [n]

/-- The `while len(stack) > 0` loop of `flatten_list`.  The head of
`stack` is the top of the Python stack (`stack.pop()` pops the head).
Popping a container pushes its elements from end to start, so that the
first child ends on top: with head-as-top this is exactly `cs ++ rest`.
Popping a leaf appends it to `result`. -/
def flattenLoop {α : Type} : List (Node α) → List α → List α
  | [], result => result
  | .leaf v :: rest, result => flattenLoop rest (result ++ [v])
  | .container cs :: rest, result => flattenLoop (cs ++ rest) result
termination_by stack _ => nodeSizeList stack
decreasing_by
  · simp only [nodeSizeList]
    omega
  · have happ : ∀ l1 l2 : List (Node α),
        nodeSizeList (l1 ++ l2) = nodeSizeList l1 + nodeSizeList l2 := by
      intro l1 l2
      induction l1 with
      | nil => simp [nodeSizeList]
      | cons h t ih => cases h <;> simp [nodeSizeList, ih] <;> omega
    simp only [nodeSizeList, happ]
    omega

/-- `flatten_list(input_list)`: run the work-list loop with the whole
input pushed on the stack and an empty result list. -/
def flatten_list {α : Type} (input_list : Node α) : List α :=
  flattenLoop [input_list] []

/-- Fuel-indexed version of the work-list loop, used to state termination:
`none` means the fuel ran out before the stack emptied.  Each ordinary
loop iteration consumes one unit of fuel. -/
def flattenFuel {α : Type} : Nat → List (Node α) → List α → Option (List α)
  | _, [], result => some result
  | 0, _ :: _, _ => none
  | fuel + 1, .leaf v :: rest, result => flattenFuel fuel rest (result ++ [v])
  | fuel + 1, .container cs :: rest, result => flattenFuel fuel (cs ++ rest) result

/-- Modelled from the spec ("empty containers anywhere in the nesting
contribute nothing to the output"): `InsertsEmpty x x2` holds when `x2`
is `x` with one extra empty container inserted among the children of a
container occurring at any nesting depth — either directly at the root
(`here`) or inside an arbitrarily deep child (`deeper`). -/
inductive InsertsEmpty {α : Type} : Node α → Node α → Prop where
  | here (cs1 cs2 : List (Node α)) :
      InsertsEmpty (.container (cs1 ++ cs2))
        (.container (cs1 ++ .container [] :: cs2))
  | deeper (cs1 cs2 : List (Node α)) (c c' : Node α) :
      InsertsEmpty c c' →
      InsertsEmpty (.container (cs1 ++ c :: cs2))
        (.container (cs1 ++ c' :: cs2))

/-! ### Customer pipeline: data model (question_3/closecustomers.py)

The script is Python 2.  JSON values decoded by `json.loads` are embedded
as `JValue` (`jobj` carries the dict as an association list with unique
keys, as produced by `json.loads`).  Python exceptions relevant to the
pipeline are embedded as `PyErr`; a Python function that can raise is
embedded with result type `Except PyErr _`.

Python's `float(...)` accepts numbers, booleans and parseable strings.
Which strings parse as floats is CPython library behaviour, not code of
this repository; it is kept abstract as a parameter
`pf : String → Option ℚ` (exact rationals standing for floats). -/

/-- A JSON value as returned by Python 2's `json.loads`. -/
inductive JValue where
  | jnull
  | jbool (b : Bool)
  | jnum (q : ℚ)
  | jstr (s : String)
  | jarr (elems : List JValue)
  | jobj (fields : List (String × JValue))

/-- The Python exceptions that the pipeline can raise or catch. -/
inductive PyErr where
  | valueError
  | typeError
  | keyError
deriving DecidableEq

/-- Association-list lookup in a decoded JSON object (keys are unique in
a dict produced by `json.loads`). -/
def jlookup (fields : List (String × JValue)) (key : String) : Option JValue :=
  match fields with
  | [] => none
  | (k, v) :: rest => if k = key then some v else jlookup rest key

/-- Python 2 `key in customer` for a string key.  Dicts check key
membership; strings check substring containment; lists check element
membership (a string key equals only an equal string element); numbers,
booleans and `None` raise `TypeError` ("argument of type ... is not
iterable"). -/
def pyContains (key : String) : JValue → Except PyErr Bool
  | .jobj fields => .ok (jlookup fields key).isSome
  | .jstr s => .ok (decide (key.toList <:+: s.toList))
  | .jarr elems => .ok (elems.any fun e =>
      match e with
      | .jstr s => s = key
      | _ => false)
  | .jnum _ => .error .typeError
  | .jbool _ => .error .typeError
  | .jnull => .error .typeError

/-- Python 2 `customer[key]` for a string key.  Dicts look the key up
(`KeyError` if absent); strings and lists require integer indices and
raise `TypeError` for a string key, as do numbers, booleans and `None`. -/
def pyIndex (key : String) : JValue → Except PyErr JValue
  | .jobj fields =>
    match jlookup fields key with
    | some v => .ok v
    | none => .error .keyError
  | .jstr _ => .error .typeError
  | .jarr _ => .error .typeError
  | .jnum _ => .error .typeError
  | .jbool _ => .error .typeError
  | .jnull => .error .typeError

/-- Python 2 `float(x)` on a JSON-decoded value: numbers are returned,
booleans coerce to 0/1, strings are parsed (`ValueError` when
unparseable, behaviour abstracted by `pf`), and `None`, lists and dicts
raise `TypeError` ("float() argument must be a string or a number"). -/
def pyFloat (pf : String → Option ℚ) : JValue → Except PyErr ℚ
  | .jnum q => .ok q
  | .jbool b => .ok (if b then 1 else 0)
  | .jstr s =>
    match pf s with
    | some q => .ok q
    | none => .error .valueError
  | .jnull => .error .typeError
  | .jarr _ => .error .typeError
  | .jobj _ => .error .typeError

/-- The required keys of a customer record.  The source stores them in a
`set`; only membership of each key is ever used, so the iteration order
chosen here is immaterial. -/
def EXPECTED_KEYS : List String := ["name", "user_id", "latitude", "longitude"]

/-- `all(key in customer for key in EXPECTED_KEYS)`: short-circuiting
conjunction in which each membership test may itself raise. -/
def pyHasKeys (customer : JValue) : List String → Except PyErr Bool
  | [] => .ok true
  | key :: rest =>
    match pyContains key customer with
    | .error e => .error e
    | .ok false => .ok false
    | .ok true => pyHasKeys customer rest

/-- `validate_customer(customer)`.  Checks the required keys, then tries
`float(customer['latitude'])` and `float(customer['longitude'])` in turn.
Each `try` block catches only `ValueError` (returning `False`); any
`TypeError` raised by the indexing or by `float` propagates to the
caller, as does any `TypeError` raised by the `in` tests on a non-dict
customer value. -/
def validate_customer (pf : String → Option ℚ) (customer : JValue) :
    Except PyErr Bool :=
  match pyHasKeys customer EXPECTED_KEYS with
  | .error e => .error e
  | .ok false => .ok false
  | .ok true =>
    match pyIndex "latitude" customer with
    | .error e => .error e
    | .ok latv =>
      match pyFloat pf latv with
      | .error .valueError => .ok false
      | .error e => .error e
      | .ok _ =>
        match pyIndex "longitude" customer with
        | .error e => .error e
        | .ok lonv =>
          match pyFloat pf lonv with
          | .error .valueError => .ok false
          | .error e => .error e
          | .ok _ => .ok true

/-- A geographic coordinate, in degrees (converted to radians only
inside `distance`).  Real numbers stand for Python floats. -/
structure Coordinate where
  latitude : ℝ
  longitude : ℝ

/-- A parsed customer.  `name` and `user_id` hold whatever JSON values
the record carried (the source stores them unconverted). -/
structure Customer where
  name : JValue
  user_id : JValue
  location : Coordinate

/-- The loop body of `parse_customer_data`.  Each input line is
represented by the outcome of `json.loads` on it (library behaviour):
`none` when decoding raised `ValueError` — which the source catches,
logging and continuing — and `some v` for a decoded value `v`.  A record
that fails validation is skipped; a record that passes is converted with
`float` and appended.  Any error raised by `validate_customer` (or later
stages) propagates out of the whole function. -/
noncomputable def parseGo (pf : String → Option ℚ) :
    List (Option JValue) → Except PyErr (List Customer)
  | [] => .ok []
  | none :: rest => parseGo pf rest
  | some customer_data :: rest =>
    match validate_customer pf customer_data with
    | .error e => .error e
    | .ok false => parseGo pf rest
    | .ok true =>
      match pyIndex "latitude" customer_data with
      | .error e => .error e
      | .ok latv =>
        match pyFloat pf latv with
        | .error e => .error e
        | .ok lat =>
          match pyIndex "longitude" customer_data with
          | .error e => .error e
          | .ok lonv =>
            match pyFloat pf lonv with
            | .error e => .error e
            | .ok lon =>
              match pyIndex "name" customer_data with
              | .error e => .error e
              | .ok namev =>
                match pyIndex "user_id" customer_data with
                | .error e => .error e
                | .ok idv =>
                  match parseGo pf rest with
                  | .error e => .error e
                  | .ok customers =>
                    .ok (Customer.mk namev idv
                          (Coordinate.mk (lat : ℝ) (lon : ℝ)) :: customers)

/-- `parse_customer_data(all_customers_json)`. -/
noncomputable def parse_customer_data (pf : String → Option ℚ)
    (all_customers_json : List (Option JValue)) : Except PyErr (List Customer) :=
  parseGo pf all_customers_json

/-! ### Distance (spherical law of cosines) -/

/-- `math.radians(x) = x * pi / 180`. -/
noncomputable def radians (degrees : ℝ) : ℝ := degrees * (Real.pi / 180)

noncomputable def EARTH_RADIUS_IN_KM : ℝ := 6371

noncomputable def RANGE_IN_KM : ℝ := 100

noncomputable def DUBLIN_OFFICE : Coordinate := ⟨53.3381985, -6.2592576⟩

/-- `math.acos`: raises `ValueError` ("math domain error") outside
`[-1, 1]`, otherwise returns the arccosine. -/
noncomputable def acos (x : ℝ) : Except PyErr ℝ :=
  if x < -1 ∨ 1 < x then .error .valueError else .ok (Real.arccos x)

/-- The argument handed to `math.acos` inside `distance`:
`sine_of_latitudes + cos_of_latitudes * cos(abs_longitude_difference)`
after both coordinates have been converted to radians. -/
noncomputable def acosArg (coord1 coord2 : Coordinate) : ℝ :=
  let c1 : Coordinate := ⟨radians coord1.latitude, radians coord1.longitude⟩
  let c2 : Coordinate := ⟨radians coord2.latitude, radians coord2.longitude⟩
  let sine_of_latitudes := Real.sin c1.latitude * Real.sin c2.latitude
  let cos_of_latitudes := Real.cos c1.latitude * Real.cos c2.latitude
  let abs_longitude_difference := |c1.longitude - c2.longitude|
  sine_of_latitudes + cos_of_latitudes * Real.cos abs_longitude_difference

/-- `distance(coord1, coord2)`: Earth radius times the central angle
computed by the (unclamped) spherical law of cosines. -/
noncomputable def distance (coord1 coord2 : Coordinate) : Except PyErr ℝ :=
  match acos (acosArg coord1 coord2) with
  | .error e => .error e
  | .ok central_angle => .ok (EARTH_RADIUS_IN_KM * central_angle)

/-- The real value that `distance` computes whenever `acos` does not
raise. -/
noncomputable def distVal (coord1 coord2 : Coordinate) : ℝ :=
  EARTH_RADIUS_IN_KM * Real.arccos (acosArg coord1 coord2)

/-! ### Filtering and formatting -/

/-- The filtering predicate of `get_customers_in_range`: the customer's
distance to the Dublin office is within `RANGE_IN_KM`. -/
def nearDublin (customer : Customer) : Prop :=
  distVal customer.location DUBLIN_OFFICE ≤ RANGE_IN_KM

section
open Classical

/-- `get_customers_in_range(customers)`: keep, in input order, the
customers whose distance to `DUBLIN_OFFICE` is at most `RANGE_IN_KM`.
Any error raised by `distance` propagates. -/
noncomputable def get_customers_in_range :
    List Customer → Except PyErr (List Customer)
  | [] => .ok []
  | customer :: rest =>
    match distance customer.location DUBLIN_OFFICE with
    | .error e => .error e
    | .ok d =>
      match get_customers_in_range rest with
      | .error e => .error e
      | .ok customers_in_range =>
        .ok (if d ≤ RANGE_IN_KM then customer :: customers_in_range
             else customers_in_range)

/-- The plain filter that `get_customers_in_range` implements on its
success path. -/
noncomputable def filterNear (customers : List Customer) : List Customer :=
  customers.filter fun customer => decide (nearDublin customer)

end

/-- Python 2 `str(...)` of a JSON-decoded value, as used by
`"{}: {}".format(user_id, name)`.  Strings print verbatim, integral
numbers in decimal, booleans as `True`/`False`, `None` as `None`.
Non-integral numbers are rendered as exact rationals (CPython's float
repr is floating-point behaviour outside this model) and containers are
rendered opaquely (CPython shows their repr; container-valued `name` or
`user_id` fields are outside the spec's data model, which fixes `name`
to text and `user_id` to an integer). -/
def pyStr : JValue → String
  | .jnull => "None"
  | .jbool b => if b then "True" else "False"
  | .jnum q => if q.den = 1 then toString q.num else toString q
  | .jstr s => s
  | .jarr _ => "[...]"
  | .jobj _ => "\x7b...\x7d"

/-- The rank CPython 2's default cross-type comparison assigns to each
JSON value shape: `None` below everything, then numbers (booleans are
numeric), then remaining types ordered by type name
(`dict` < `list` < `unicode`). -/
def jrank : JValue → Nat
  | .jnull => 0
  | .jbool _ => 1
  | .jnum _ => 1
  | .jobj _ => 2
  | .jarr _ => 3
  | .jstr _ => 4

/-- Numeric value used for ordering rank-1 values (`True == 1`,
`False == 0`). -/
def jnumVal : JValue → ℚ
  | .jnum q => q
  | .jbool b => if b then 1 else 0
  | _ => 0

/-- String value used for ordering rank-4 values (code-point
lexicographic, as for Python 2 unicode strings). -/
def jstrVal : JValue → String
  | .jstr s => s
  | _ => ""

/-- Sort key embedding CPython 2's default ordering on the JSON values
that can appear as `user_id`: rank first, then numeric value, then
string value, compared lexicographically.  Distinct lists (and distinct
dicts) of equal rank tie under this key; CPython would order them by
their contents, but such `user_id`s are outside the spec's data model. -/
def pyKey (v : JValue) : Lex (Nat × Lex (ℚ × String)) :=
  toLex (jrank v, toLex (jnumVal v, jstrVal v))

/-- The ordering used by `sorted(customers, key=lambda customer:
customer.user_id)`. -/
def userIdLe (c1 c2 : Customer) : Prop :=
  pyKey c1.user_id ≤ pyKey c2.user_id

instance : DecidableRel userIdLe := fun c1 c2 =>
  inferInstanceAs (Decidable (pyKey c1.user_id ≤ pyKey c2.user_id))

instance : IsTotal Customer userIdLe :=
  ⟨fun c1 c2 => le_total (pyKey c1.user_id) (pyKey c2.user_id)⟩

instance : IsTrans Customer userIdLe :=
  ⟨fun _ _ _ h1 h2 => le_trans h1 h2⟩

/-- One output line: `"{}: {}".format(customer.user_id, customer.name)`. -/
def formatLine (customer : Customer) : String :=
  pyStr customer.user_id ++ ": " ++ pyStr customer.name

/-- `format_customers(customers)`: sort by `user_id` (Python's `sorted`
is a stable sort; insertion sort with a non-strict order is likewise
stable), format one line per customer, join with newlines; an empty
result yields the fixed message (`"No customers within {} km."` with
`RANGE_IN_KM = 100.0`, which CPython renders as `"100.0"`). -/
def format_customers (customers : List Customer) : String :=
  let sorted_customers := List.insertionSort userIdLe customers
  let result := sorted_customers.map formatLine
  if result.isEmpty then "No customers within 100.0 km."
  else String.intercalate "\n" result

/-! ### Flattener: lemmas and claims -/

theorem nodeSizeList_append {α : Type} (l1 l2 : List (Node α)) :
    nodeSizeList (l1 ++ l2) = nodeSizeList l1 + nodeSizeList l2 := by
  induction l1 with
  | nil => simp [nodeSizeList]
  | cons h t ih => cases h <;> simp [nodeSizeList, ih] <;> omega

theorem preorderLeavesList_append {α : Type} (l1 l2 : List (Node α)) :
    preorderLeavesList (l1 ++ l2) =
      preorderLeavesList l1 ++ preorderLeavesList l2 := by
  induction l1 with
  | nil => simp [preorderLeavesList]
  | cons h t ih => cases h <;> simp [preorderLeavesList, ih]

theorem flattenLoop_eq {α : Type} (stack : List (Node α)) (result : List α) :
    flattenLoop stack result = result ++ preorderLeavesList stack := by
  induction stack, result using flattenLoop.induct with
  | case1 result => simp [flattenLoop, preorderLeavesList]
  | case2 v rest result ih => simp [flattenLoop, preorderLeavesList, ih]
  | case3 cs rest result ih =>
    simp [flattenLoop, preorderLeavesList, ih, preorderLeavesList_append]

theorem flatten_list_eq_preorderLeaves {α : Type} (x : Node α) :
    flatten_list x = preorderLeaves x := by
  simp [flatten_list, preorderLeaves, flattenLoop_eq]

theorem preorderLeavesList_length {α : Type} (l : List (Node α)) :
    (preorderLeavesList l).length = leafCountList l := by
  induction l using preorderLeavesList.induct with
  | case1 => simp [preorderLeavesList, leafCountList]
  | case2 v rest ih => simp [preorderLeavesList, leafCountList, ih]; omega
  | case3 cs rest ih1 ih2 =>
    simp [preorderLeavesList, leafCountList, ih1, ih2]

theorem preorderLeavesList_map_leaf {α : Type} (vs : List α) :
    preorderLeavesList (vs.map Node.leaf) = vs := by
  induction vs with
  | nil => simp [preorderLeavesList]
  | cons v t ih => simp [preorderLeavesList, ih]

/-- C3: for every finite acyclic nesting of containers and leaves,
`flatten_list` returns exactly the depth-first pre-order left-to-right
sequence of leaves of its input, and consequently the output length
equals the number of leaves of the input. -/
theorem flatten_list_correct {α : Type} (x : Node α) :
    flatten_list x = preorderLeaves x ∧
      (flatten_list x).length = leafCount x := by
  constructor
  · exact flatten_list_eq_preorderLeaves x
  · rw [flatten_list_eq_preorderLeaves x]
    exact preorderLeavesList_length [x]

theorem preorderLeaves_container {α : Type} (cs : List (Node α)) :
    preorderLeaves (Node.container cs) = preorderLeavesList cs := by
  simp [preorderLeaves, preorderLeavesList]

theorem preorderLeavesList_cons {α : Type} (c : Node α)
    (rest : List (Node α)) :
    preorderLeavesList (c :: rest) =
      preorderLeaves c ++ preorderLeavesList rest := by
  cases c <;> simp [preorderLeavesList, preorderLeaves_container, preorderLeaves]

theorem preorderLeaves_insertsEmpty {α : Type} {x x' : Node α}
    (h : InsertsEmpty x x') : preorderLeaves x' = preorderLeaves x := by
  induction h with
  | here cs1 cs2 =>
    simp [preorderLeaves_container, preorderLeavesList_append,
      preorderLeavesList]
  | deeper cs1 cs2 c c' hins ih =>
    simp [preorderLeaves_container, preorderLeavesList_append,
      preorderLeavesList_cons, ih]

/-- C4: an all-leaf input is returned unchanged (hence the empty input
yields the empty output and `flatten_list` is idempotent, re-wrapping
the flat output as an all-leaf list), and inserting an empty container
among the children of a container at any nesting depth of the input
(the relation `InsertsEmpty`) contributes no elements to the output. -/
theorem flatten_list_flat_and_empty {α : Type} :
    (∀ vs : List α, flatten_list (Node.container (vs.map Node.leaf)) = vs) ∧
    flatten_list (Node.container ([] : List (Node α))) = [] ∧
    (∀ x : Node α,
      flatten_list (Node.container ((flatten_list x).map Node.leaf)) =
        flatten_list x) ∧
    (∀ x x' : Node α, InsertsEmpty x x' →
      flatten_list x' = flatten_list x) := by
  have hflat : ∀ vs : List α,
      flatten_list (Node.container (vs.map Node.leaf)) = vs := by
    intro vs
    rw [flatten_list_eq_preorderLeaves]
    simp [preorderLeaves, preorderLeavesList, preorderLeavesList_map_leaf]
  refine ⟨hflat, ?_, fun x => hflat (flatten_list x), ?_⟩
  · simpa using hflat []
  · intro x x' h
    rw [flatten_list_eq_preorderLeaves, flatten_list_eq_preorderLeaves,
      preorderLeaves_insertsEmpty h]

/-- Witness for C4 at a concrete input: inserting an empty container at
depth 2 (inside the nested container of `[1, [2]]`, giving
`[1, [[], 2]]`) leaves the flattened output unchanged. -/
theorem flatten_list_flat_and_empty_witness :
    InsertsEmpty
      (Node.container [Node.leaf (1 : ℕ), Node.container [Node.leaf 2]])
      (Node.container [Node.leaf 1,
        Node.container [Node.container [], Node.leaf 2]]) ∧
    flatten_list
        (Node.container [Node.leaf (1 : ℕ),
          Node.container [Node.container [], Node.leaf 2]]) =
      flatten_list
        (Node.container [Node.leaf 1, Node.container [Node.leaf 2]]) :=
  ⟨InsertsEmpty.deeper [Node.leaf 1] [] _ _
     (InsertsEmpty.here [] [Node.leaf 2]),
   flatten_list_flat_and_empty.2.2.2 _ _
     (InsertsEmpty.deeper [Node.leaf 1] [] _ _
       (InsertsEmpty.here [] [Node.leaf 2]))⟩

theorem flattenFuel_eq {α : Type} (stack : List (Node α)) (result : List α) :
    ∀ fuel : Nat, nodeSizeList stack ≤ fuel →
      flattenFuel fuel stack result = some (flattenLoop stack result) := by
  induction stack, result using flattenLoop.induct with
  | case1 result =>
    intro fuel _
    cases fuel <;> simp [flattenFuel, flattenLoop]
  | case2 v rest result ih =>
    intro fuel h
    cases fuel with
    | zero => simp [nodeSizeList] at h
    | succ f =>
      rw [flattenFuel, flattenLoop]
      exact ih f (by simp [nodeSizeList] at h; omega)
  | case3 cs rest result ih =>
    intro fuel h
    cases fuel with
    | zero => simp [nodeSizeList] at h
    | succ f =>
      rw [flattenFuel, flattenLoop]
      refine ih f ?_
      rw [nodeSizeList_append]
      simp [nodeSizeList] at h
      omega

/-- C10: the work-list loop of `flatten_list` terminates on every finite
acyclic input: run with fuel at least the total node count of the input,
the fuel-indexed loop empties its stack and returns the result of
`flatten_list` (it never runs out of fuel). -/
theorem flatten_list_terminates {α : Type} (x : Node α) (fuel : Nat)
    (h : nodeSizeList [x] ≤ fuel) :
    flattenFuel fuel [x] [] = some (flatten_list x) :=
  flattenFuel_eq [x] [] fuel h

/-- Witness for C10 at a concrete input: the nested list `[[1]]` has
node count 2 and is flattened to `[1]` within fuel 2. -/
theorem flatten_list_terminates_witness :
    nodeSizeList [Node.container [Node.leaf (1 : ℕ)]] ≤ 2 ∧
      flattenFuel 2 [Node.container [Node.leaf (1 : ℕ)]] [] =
        some (flatten_list (Node.container [Node.leaf 1])) :=
  ⟨by simp [nodeSizeList],
   flatten_list_terminates (Node.container [Node.leaf 1]) 2
     (by simp [nodeSizeList])⟩

/-! ### Distance: lemmas and claims -/

theorem acosArg_def (c1 c2 : Coordinate) :
    acosArg c1 c2 =
      Real.sin (radians c1.latitude) * Real.sin (radians c2.latitude) +
        Real.cos (radians c1.latitude) * Real.cos (radians c2.latitude) *
          Real.cos |radians c1.longitude - radians c2.longitude| := rfl

theorem sphericalTerm_le_one (a b t : ℝ) :
    Real.sin a * Real.sin b + Real.cos a * Real.cos b * Real.cos t ≤ 1 := by
  have hct1 : Real.cos t ≤ 1 := Real.cos_le_one t
  have hct2 : -1 ≤ Real.cos t := Real.neg_one_le_cos t
  have hsub := Real.cos_sub a b
  have hadd := Real.cos_add a b
  have h1 := Real.cos_le_one (a - b)
  have h2 := Real.neg_one_le_cos (a + b)
  rcases le_total 0 (Real.cos a * Real.cos b) with h | h
  · nlinarith [mul_le_mul_of_nonneg_left hct1 h]
  · nlinarith [mul_le_mul_of_nonpos_left hct2 h]

theorem neg_one_le_sphericalTerm (a b t : ℝ) :
    -1 ≤ Real.sin a * Real.sin b + Real.cos a * Real.cos b * Real.cos t := by
  have hct1 : Real.cos t ≤ 1 := Real.cos_le_one t
  have hct2 : -1 ≤ Real.cos t := Real.neg_one_le_cos t
  have hsub := Real.cos_sub a b
  have hadd := Real.cos_add a b
  have h1 := Real.neg_one_le_cos (a - b)
  have h2 := Real.cos_le_one (a + b)
  rcases le_total 0 (Real.cos a * Real.cos b) with h | h
  · nlinarith [mul_le_mul_of_nonneg_left hct2 h]
  · nlinarith [mul_le_mul_of_nonpos_left hct1 h]

theorem acosArg_le_one (c1 c2 : Coordinate) : acosArg c1 c2 ≤ 1 := by
  rw [acosArg_def]
  exact sphericalTerm_le_one _ _ _

theorem neg_one_le_acosArg (c1 c2 : Coordinate) : -1 ≤ acosArg c1 c2 := by
  rw [acosArg_def]
  exact neg_one_le_sphericalTerm _ _ _

theorem acos_eq_ok (x : ℝ) (h1 : -1 ≤ x) (h2 : x ≤ 1) :
    acos x = .ok (Real.arccos x) := by
  unfold acos
  rw [if_neg (by push_neg; exact ⟨h1, h2⟩)]

theorem distance_eq_ok (c1 c2 : Coordinate) :
    distance c1 c2 = .ok (distVal c1 c2) := by
  unfold distance distVal
  rw [acos_eq_ok _ (neg_one_le_acosArg c1 c2) (acosArg_le_one c1 c2)]

theorem acosArg_self (x : Coordinate) : acosArg x x = 1 := by
  rw [acosArg_def, sub_self, abs_zero, Real.cos_zero, mul_one]
  have h := Real.sin_sq_add_cos_sq (radians x.latitude)
  linear_combination h

theorem distVal_self (x : Coordinate) : distVal x x = 0 := by
  rw [distVal, acosArg_self, Real.arccos_one, mul_zero]

/-- C1: the great-circle distance from a point to itself is zero
kilometers — in the exact-real embedding `distance x x` returns `0` for
every coordinate `x` (the `acos` argument is exactly `1`, so no clamping
is needed and the domain check passes). -/
theorem distance_self (x : Coordinate) : distance x x = .ok 0 := by
  rw [distance_eq_ok, distVal_self]

/-- In exact real arithmetic the cosine-sum always lies within `[-1, 1]`
and `distance` always succeeds: real-valued trigonometry cannot
overshoot `1`, so over the reals the domain-error branch is unreachable
even without clamping.  This does not transfer to the floating-point
runtime (see the C2 theorem below). -/
theorem acos_domain_safe (coord1 coord2 : Coordinate) :
    -1 ≤ acosArg coord1 coord2 ∧ acosArg coord1 coord2 ≤ 1 ∧
      distance coord1 coord2 = .ok (distVal coord1 coord2) :=
  ⟨neg_one_le_acosArg coord1 coord2, acosArg_le_one coord1 coord2,
    distance_eq_ok coord1 coord2⟩

/-- C2 (code bug): the source passes the cosine-sum to `math.acos`
without any clamping, so the domain-error branch is reachable in the
floating-point runtime.  In IEEE double arithmetic the same-point
cosine-sum `sin(r)*sin(r) + cos(r)*cos(r)*cos(0.0)` rounds one ulp
above `1` for many latitudes (for example latitude `0.0074`), giving
exactly `1 + 2^-52 = 4503599627370497 / 4503599627370496`, at which the
unclamped `acos` raises `ValueError: math domain error`, as this
theorem evaluates on the embedded `acos`.  The `[-1, 1]` bound holds
only in exact real arithmetic (`acos_domain_safe`), where no clamping
is needed; the claim's asserted clamping does not exist in the code. -/
theorem acos_unclamped_overshoot_raises :
    acos ((4503599627370497 : ℝ) / 4503599627370496) = .error .valueError := by
  unfold acos
  rw [if_pos (Or.inr (by norm_num :
    (1 : ℝ) < 4503599627370497 / 4503599627370496))]

/-- C7: `distance` is symmetric in its two coordinate arguments. -/
theorem distance_symm (a b : Coordinate) : distance a b = distance b a := by
  have harg : acosArg a b = acosArg b a := by
    rw [acosArg_def, acosArg_def, abs_sub_comm]
    ring
  unfold distance
  rw [harg]

/-! ### Validation and parsing: claims C5 and C6

Both claims fail on the source: `validate_customer` wraps
`float(customer['latitude'])` in `try/except ValueError`, but Python 2's
`float(None)` (and `float` of a list or dict) raises `TypeError`, which
is not caught and escapes; similarly, a line holding valid JSON that is
not an object (for example the line `5`) makes the `in` test inside
`validate_customer` raise `TypeError`, which escapes
`parse_customer_data`. -/

/-- C5 (code bug): on the record
`{"name": "Eve", "user_id": 1, "latitude": null, "longitude": 0}` —
whose latitude cannot be parsed as a floating-point number —
`validate_customer` raises `TypeError` instead of returning false: the
`except ValueError` handler does not catch the `TypeError` that
`float(None)` raises. -/
theorem validate_customer_null_latitude_raises :
    validate_customer (fun _ => none)
      (JValue.jobj [("name", JValue.jstr "Eve"), ("user_id", JValue.jnum 1),
        ("latitude", JValue.jnull), ("longitude", JValue.jnum 0)]) =
      .error .typeError := rfl

/-- C6 (code bug): on the single input line `5` — valid JSON that
decodes to the number `5` — `parse_customer_data` raises `TypeError`
instead of dropping the record: `'name' in 5` inside `validate_customer`
raises, and no handler on the path catches it. -/
theorem parse_customer_data_nonobject_line_raises :
    parse_customer_data (fun _ => none) [some (JValue.jnum 5)] =
      .error .typeError := rfl

/-! ### Filtering: claim C8 -/

theorem get_customers_in_range_eq_filterNear (customers : List Customer) :
    get_customers_in_range customers = .ok (filterNear customers) := by
  induction customers with
  | nil => simp [get_customers_in_range, filterNear]
  | cons c rest ih =>
    rw [get_customers_in_range, distance_eq_ok, ih]
    by_cases h : distVal c.location DUBLIN_OFFICE ≤ RANGE_IN_KM
    · simp [filterNear, List.filter_cons, nearDublin, h]
    · simp [filterNear, List.filter_cons, nearDublin, h]

theorem mem_filterNear (customers : List Customer) (c : Customer) :
    c ∈ filterNear customers ↔ c ∈ customers ∧ nearDublin c := by
  simp [filterNear, List.mem_filter]

/-- C8: `get_customers_in_range` succeeds on every customer list and
retains exactly the customers whose distance to `DUBLIN_OFFICE` is at
most `RANGE_IN_KM` (as the sublist `filterNear` of the input, in input
order); the empty input yields the empty output, and a customer located
exactly at the reference coordinate is always included. -/
theorem get_customers_in_range_correct :
    get_customers_in_range ([] : List Customer) = .ok [] ∧
    (∀ customers : List Customer,
      get_customers_in_range customers = .ok (filterNear customers)) ∧
    (∀ (customers : List Customer) (c : Customer),
      c ∈ filterNear customers ↔
        c ∈ customers ∧ distVal c.location DUBLIN_OFFICE ≤ RANGE_IN_KM) ∧
    (∀ (n i : JValue) (rest : List Customer),
      Customer.mk n i DUBLIN_OFFICE ∈
        filterNear (Customer.mk n i DUBLIN_OFFICE :: rest)) := by
  have hmem : ∀ (customers : List Customer) (c : Customer),
      c ∈ filterNear customers ↔
        c ∈ customers ∧ distVal c.location DUBLIN_OFFICE ≤ RANGE_IN_KM :=
    fun customers c => mem_filterNear customers c
  refine ⟨by simpa using get_customers_in_range_eq_filterNear [],
    get_customers_in_range_eq_filterNear, hmem, ?_⟩
  intro n i rest
  refine (hmem _ _).mpr ⟨List.mem_cons_self _ _, ?_⟩
  rw [show (Customer.mk n i DUBLIN_OFFICE).location = DUBLIN_OFFICE from rfl,
    distVal_self]
  unfold RANGE_IN_KM
  norm_num

/-! ### Formatting: claim C9 -/

theorem eq_of_sorted_perm_nodup_keys :
    ∀ l1 l2 : List Customer, l1.Perm l2 → l1.Sorted userIdLe →
      l2.Sorted userIdLe →
      (l1.map fun c => pyKey c.user_id).Nodup → l1 = l2 := by
  intro l1
  induction l1 with
  | nil =>
    intro l2 hp _ _ _
    exact hp.nil_eq
  | cons a t1 ih =>
    intro l2 hp hs1 hs2 hnd
    cases l2 with
    | nil => simp at hp
    | cons b t2 =>
      by_cases hab : a = b
      · subst hab
        have ht := hp.cons_inv
        have htail := ih t2 ht hs1.of_cons hs2.of_cons
          (by simpa [List.nodup_cons] using (List.nodup_cons.mp (by simpa using hnd)).2)
        rw [htail]
      · exfalso
        have hbmem : b ∈ t1 := by
          have hb : b ∈ a :: t1 := hp.mem_iff.mpr (List.mem_cons_self _ _)
          rcases List.mem_cons.mp hb with h | h
          · exact absurd h.symm hab
          · exact h
        have hamem : a ∈ t2 := by
          have ha : a ∈ b :: t2 := hp.mem_iff.mp (List.mem_cons_self _ _)
          rcases List.mem_cons.mp ha with h | h
          · exact absurd h hab
          · exact h
        have hab_le : userIdLe a b := (List.sorted_cons.mp hs1).1 b hbmem
        have hba_le : userIdLe b a := (List.sorted_cons.mp hs2).1 a hamem
        have hkey : pyKey a.user_id = pyKey b.user_id :=
          le_antisymm hab_le hba_le
        have hbk : pyKey b.user_id ∈ t1.map fun c => pyKey c.user_id :=
          List.mem_map.mpr ⟨b, hbmem, rfl⟩
        have hhead : (pyKey a.user_id) ∉ t1.map fun c => pyKey c.user_id :=
          (List.nodup_cons.mp (by simpa using hnd)).1
        exact hhead (hkey ▸ hbk)

/-- C9: `format_customers` of the empty list is exactly
`"No customers within 100.0 km."`; for every non-empty customer list it
returns the `"{user_id}: {name}"` lines of the customers joined by
newlines, ordered ascending by `user_id`; and (for lists whose
`user_id` sort keys are pairwise distinct) the output does not depend on
the input order. -/
theorem format_customers_correct :
    format_customers [] = "No customers within 100.0 km." ∧
    (∀ customers : List Customer, customers ≠ [] →
      ∃ sorted_customers : List Customer,
        sorted_customers.Perm customers ∧
        sorted_customers.Sorted userIdLe ∧
        format_customers customers =
          String.intercalate "\n" (sorted_customers.map formatLine)) ∧
    (∀ customers customers2 : List Customer, customers.Perm customers2 →
      (customers.map fun c => pyKey c.user_id).Nodup →
      format_customers customers = format_customers customers2) := by
  refine ⟨rfl, ?_, ?_⟩
  · intro customers hne
    refine ⟨List.insertionSort userIdLe customers,
      List.perm_insertionSort userIdLe customers,
      List.sorted_insertionSort userIdLe customers, ?_⟩
    unfold format_customers
    have hlen : (List.insertionSort userIdLe customers).length =
        customers.length := (List.perm_insertionSort userIdLe customers).length_eq
    have hempty : ((List.insertionSort userIdLe customers).map
        formatLine).isEmpty = false := by
      rw [List.isEmpty_eq_false]
      intro hmap
      have := congrArg List.length hmap
      simp [hlen] at this
      exact hne this
    simp only [hempty]
    rfl
  · intro customers customers2 hp hnd
    have h1 := List.perm_insertionSort userIdLe customers
    have h2 := List.perm_insertionSort userIdLe customers2
    have hsort_eq : List.insertionSort userIdLe customers =
        List.insertionSort userIdLe customers2 := by
      apply eq_of_sorted_perm_nodup_keys
      · exact (h1.trans hp).trans h2.symm
      · exact List.sorted_insertionSort userIdLe customers
      · exact List.sorted_insertionSort userIdLe customers2
      · exact ((h1.map fun c => pyKey c.user_id).nodup_iff).mpr hnd
    unfold format_customers
    rw [hsort_eq]

/-- Witness for C9 at concrete inputs: the spec's example pair, listed
in descending `user_id` order, is formatted sorted ascending, and the
reversed input order yields the same output. -/
theorem format_customers_correct_witness :
    (([Customer.mk (JValue.jstr "Arya Stark") (JValue.jnum 2) ⟨0, 0⟩,
       Customer.mk (JValue.jstr "Tyrion Lannister") (JValue.jnum 1) ⟨0, 0⟩] :
        List Customer) ≠ []) ∧
    (([Customer.mk (JValue.jstr "Arya Stark") (JValue.jnum 2) ⟨0, 0⟩,
       Customer.mk (JValue.jstr "Tyrion Lannister") (JValue.jnum 1)
         ⟨0, 0⟩].map fun c => pyKey c.user_id).Nodup) ∧
    (([Customer.mk (JValue.jstr "Arya Stark") (JValue.jnum 2) ⟨0, 0⟩,
       Customer.mk (JValue.jstr "Tyrion Lannister") (JValue.jnum 1)
         ⟨0, 0⟩] : List Customer).Perm
      [Customer.mk (JValue.jstr "Tyrion Lannister") (JValue.jnum 1) ⟨0, 0⟩,
       Customer.mk (JValue.jstr "Arya Stark") (JValue.jnum 2) ⟨0, 0⟩]) ∧
    (∃ sorted_customers : List Customer,
      sorted_customers.Perm
        [Customer.mk (JValue.jstr "Arya Stark") (JValue.jnum 2) ⟨0, 0⟩,
         Customer.mk (JValue.jstr "Tyrion Lannister") (JValue.jnum 1)
           ⟨0, 0⟩] ∧
      sorted_customers.Sorted userIdLe ∧
      format_customers
          [Customer.mk (JValue.jstr "Arya Stark") (JValue.jnum 2) ⟨0, 0⟩,
           Customer.mk (JValue.jstr "Tyrion Lannister") (JValue.jnum 1)
             ⟨0, 0⟩] =
        String.intercalate "\n" (sorted_customers.map formatLine)) ∧
    format_customers
        [Customer.mk (JValue.jstr "Arya Stark") (JValue.jnum 2) ⟨0, 0⟩,
         Customer.mk (JValue.jstr "Tyrion Lannister") (JValue.jnum 1)
           ⟨0, 0⟩] =
      format_customers
        [Customer.mk (JValue.jstr "Tyrion Lannister") (JValue.jnum 1) ⟨0, 0⟩,
         Customer.mk (JValue.jstr "Arya Stark") (JValue.jnum 2) ⟨0, 0⟩] :=
  ⟨by simp,
   by decide,
   List.Perm.swap _ _ _,
   format_customers_correct.2.1 _ (by simp),
   format_customers_correct.2.2 _ _ (List.Perm.swap _ _ _) (by decide)⟩

end IntercomTest
